import Mathlib

/-
Verification development for the workload-reconciliation core of a
teamwork time-tracking CLI (Rust sources: teamwork_service.rs,
teamwork_config.rs, main.rs).

Modelling conventions:
* a chrono `NaiveDate` is modelled as a `Nat` counting days since 1970-01-01
  (1970-01-01 was a Thursday).  `succ` on dates is `+ 1`, `lt`/`le` are the
  `Nat` orders, and the weekday index is `(d + 3) % 7` with 0 = Monday,
  5 = Saturday, 6 = Sunday.
* chrono's `format("%Y-%m-%d")` / `format("%Y%m%d")` are reimplemented from
  the standard civil-from-days calendar algorithm, producing the same
  zero-padded strings chrono prints for these dates.
* i32 hour arithmetic is modelled on `Int` (the quantities involved are
  small; wraparound of 32-bit arithmetic is out of scope).
* The HTTP gateway (reqwest) is modelled by explicit `Except String`
  results handed to the functions: `save_time` receives the result of the
  `get_account` and `last_time_entries` fetches, and an `oracle` giving the
  result of the k-th `save_time_entry` POST.  A `?`-propagated
  transport/parse failure is an `Except.error`.
* `TimeEntry.hours` is a decimal string in the source, read through
  `TimeEntry::hours()` = `parse::<i32>().unwrap()`; the embedding carries
  the parsed integer value directly (every claim quantifies over entries
  with integer hours).
* `println!` output of the per-day loop is modelled as the returned `log`
  list: one `(date, remaining_workload)` pair per visited day.
-/

/-- Weekday index of a date: `(d + 3) % 7`, 0 = Monday .. 5 = Saturday,
6 = Sunday (day 0 = 1970-01-01 is a Thursday, index 3).  Models chrono
`Datelike::weekday`. -/
def weekdayIdx (d : Nat) : Nat := (d + 3) % 7

/-- Embeds `is_working_day` (teamwork_service.rs:209-211):
`d.weekday() != Weekday::Sat && d.weekday() != Weekday::Sun`. -/
def is_working_day (d : Nat) : Bool :=
  weekdayIdx d != 5 && weekdayIdx d != 6

/-- Civil calendar (year, month, day) of a day count since 1970-01-01,
standard era-based algorithm (valid for all inputs here, year ≥ 1970). -/
def civilFromDays (z : Nat) : Nat × Nat × Nat :=
  let z' := z + 719468
  let era := z' / 146097
  let doe := z' % 146097
  let yoe := (doe - doe / 1460 + doe / 36524 - doe / 146096) / 365
  let y := yoe + era * 400
  let doy := doe - (365 * yoe + yoe / 4 - yoe / 100)
  let mp := (5 * doy + 2) / 153
  let d := doy - (153 * mp + 2) / 5 + 1
  let m := if mp < 10 then mp + 3 else mp - 9
  (if m ≤ 2 then y + 1 else y, m, d)

/-- Zero-pad a number to two digits, as chrono `%m` / `%d` print. -/
def pad2 (n : Nat) : String :=
  if n < 10 then "0" ++ toString n else toString n

/-- Zero-pad a number to four digits, as chrono `%Y` prints. -/
def pad4 (n : Nat) : String :=
  if n < 10 then "000" ++ toString n
  else if n < 100 then "00" ++ toString n
  else if n < 1000 then "0" ++ toString n
  else toString n

/-- chrono `date.format("%Y-%m-%d").to_string()`. -/
def formatYmdDashed (d : Nat) : String :=
  pad4 (civilFromDays d).1 ++ "-" ++ pad2 (civilFromDays d).2.1 ++ "-" ++
    pad2 (civilFromDays d).2.2

/-- chrono `date.format("%Y%m%d").to_string()`. -/
def formatYmdCompact (d : Nat) : String :=
  pad4 (civilFromDays d).1 ++ pad2 (civilFromDays d).2.1 ++
    pad2 (civilFromDays d).2.2

lemma not_working_mod (d : Nat) (h : ¬ is_working_day d = true) :
    (d + 3) % 7 = 5 ∨ (d + 3) % 7 = 6 := by
  simp only [is_working_day, weekdayIdx, Bool.and_eq_true, bne_iff_ne, ne_eq,
    not_and_or, not_not] at h
  exact h

lemma working_of_mod (d : Nat) (h : (d + 3) % 7 ≠ 5 ∧ (d + 3) % 7 ≠ 6) :
    is_working_day d = true := by
  simp only [is_working_day, weekdayIdx, Bool.and_eq_true, bne_iff_ne, ne_eq]
  exact h

/-- Embeds the cursor-advance loop of `save_time`
(teamwork_service.rs:184-186): `while !is_working_day(d) { d = d.succ() }`. -/
def skipNonWorking (d : Nat) : Nat :=
  if is_working_day d then d else skipNonWorking (d + 1)
termination_by (if (d + 3) % 7 = 5 then 2 else if (d + 3) % 7 = 6 then 1 else 0 : Nat)
decreasing_by
  rename_i h
  have h' := not_working_mod d h
  simp_wf
  split_ifs <;> omega

/-- chrono `DateTime<Utc>`: a calendar date plus a time of day (seconds);
`date().naive_utc()` projects out the date. -/
structure DateTimeUtc where
  date_part : Nat
  seconds : Nat
deriving DecidableEq, Repr

/-- Models `t.date.date().naive_utc()` on a `TimeEntry` date. -/
def DateTimeUtc.date_naive_utc (t : DateTimeUtc) : Nat := t.date_part

/-- Embeds struct `TimeEntry` (teamwork_service.rs:292-310).  `hours` holds
the integer value of the source's decimal-string field, as read by
`TimeEntry::hours()`. -/
structure TimeEntry where
  id : String
  description : String
  date : DateTimeUtc
  hours : Int
  project_id : String
  project_name : String
  todo_list_id : String
  todo_list_name : String
  todo_item_id : String
  todo_item_name : String
deriving DecidableEq, Repr

/-- Embeds struct `TimeOff` (teamwork_config.rs:88-92). -/
structure TimeOff where
  date : String
  hours : Int
deriving DecidableEq, Repr

/-- Embeds struct `ProjectAlias` (teamwork_config.rs:82-86). -/
structure ProjectAlias where
  project_id : String
  «alias» : String
deriving DecidableEq, Repr

/-- Embeds struct `TeamWorkConfig` (teamwork_config.rs:26-33). -/
structure TeamWorkConfig where
  company_id : String
  token : String
  project_aliases : List ProjectAlias
  times_off : List TimeOff
  starred_tasks : List Nat
deriving DecidableEq, Repr

/-- Embeds struct `Account` (teamwork_service.rs:263-266). -/
structure Account where
  id : String
deriving DecidableEq, Repr

/-- Embeds struct `TimeEntryInput` (teamwork_service.rs:324-333). -/
structure TimeEntryInput where
  description : String
  person_id : String
  date : String
  time : String
  hours : String
  minutes : String
deriving DecidableEq, Repr

/-- Embeds struct `TimeEntryCreatedResponse` (teamwork_service.rs:335-341). -/
structure TimeEntryCreatedResponse where
  id : Option String
  status : String
deriving DecidableEq, Repr

/-- Embeds `WORKING_DAY_DURATION` (teamwork_service.rs:12). -/
def WORKING_DAY_DURATION : Int := 8

/-- Embeds `get_remaining_workload` (teamwork_service.rs:213-240). -/
def get_remaining_workload (date : Nat)
    (existing_time_entries : List TimeEntry) (times_off : List TimeOff) : Int :=
  let existings :=
    existing_time_entries.filter (fun t => t.date.date_naive_utc == date)
  let r1 := existings.foldl (fun r e => r - e.hours) WORKING_DAY_DURATION
  let tos := times_off.filter (fun t => t.date == formatYmdDashed date)
  let r2 := tos.foldl (fun r t => r - t.hours) r1
  if r2 < 0 then 0 else r2

/-- Hours of existing entries matching a date, summed. -/
def entryHoursOn (date : Nat) (entries : List TimeEntry) : Int :=
  ((entries.filter (fun t => t.date.date_naive_utc == date)).map
    TimeEntry.hours).sum

/-- Hours of time-off records whose string key matches a date, summed. -/
def timeOffHoursOn (date : Nat) (times_off : List TimeOff) : Int :=
  ((times_off.filter (fun t => t.date == formatYmdDashed date)).map
    TimeOff.hours).sum

lemma foldl_sub_eq {α : Type} (f : α → Int) :
    ∀ (l : List α) (init : Int),
      l.foldl (fun r e => r - f e) init = init - (l.map f).sum := by
  intro l
  induction l with
  | nil => intro init; simp
  | cons a l ih =>
    intro init
    simp only [List.foldl_cons, List.map_cons, List.sum_cons]
    rw [ih]
    omega

/-- Closed form of `get_remaining_workload`: clamped baseline minus the two
matching sums. -/
lemma get_remaining_workload_eq (date : Nat) (entries : List TimeEntry)
    (times_off : List TimeOff) :
    get_remaining_workload date entries times_off =
      max 0 (8 - entryHoursOn date entries - timeOffHoursOn date times_off) := by
  simp only [get_remaining_workload, entryHoursOn, timeOffHoursOn,
    foldl_sub_eq TimeEntry.hours, foldl_sub_eq TimeOff.hours,
    WORKING_DAY_DURATION]
  split_ifs <;> omega

lemma sum_map_nonneg {α : Type} (f : α → Int) (l : List α)
    (h : ∀ x ∈ l, 0 ≤ f x) : 0 ≤ (l.map f).sum := by
  induction l with
  | nil => simp
  | cons a l ih =>
    simp only [List.map_cons, List.sum_cons]
    have h1 := h a (by simp)
    have h2 : 0 ≤ (l.map f).sum := ih (fun x hx => h x (by simp [hx]))
    omega

/-- C1: for every date, entry list and time-off list,
`get_remaining_workload` equals `max 0 (8 - matching entry hours - matching
time-off hours)`; in particular a day whose logged plus excused hours reach
or exceed the 8-hour baseline yields exactly 0. -/
theorem claim_C1 (d : Nat) (entries : List TimeEntry)
    (times_off : List TimeOff) :
    get_remaining_workload d entries times_off =
      max 0 (8 - entryHoursOn d entries - timeOffHoursOn d times_off) ∧
    (8 ≤ entryHoursOn d entries + timeOffHoursOn d times_off →
      get_remaining_workload d entries times_off = 0) := by
  refine ⟨get_remaining_workload_eq d entries times_off, fun h => ?_⟩
  rw [get_remaining_workload_eq d entries times_off]
  omega

/-- A concrete time entry used by witnesses. -/
def sampleEntry (d : Nat) (h : Int) : TimeEntry :=
  ⟨"1", "entry", ⟨d, 0⟩, h, "p", "pn", "tl", "tln", "ti", "tin"⟩

/-- Witness for C1: a day with 9 logged hours has zero remaining quota. -/
theorem claim_C1_witness :
    get_remaining_workload 0 [sampleEntry 0 9] [] = 0 :=
  (claim_C1 0 [sampleEntry 0 9] []).2 (by decide)

/-- C8: with non-negative hours everywhere, the remaining workload lies in
[0, 8], and appending one more matching entry or matching time-off record
never increases it. -/
theorem claim_C8 (d : Nat) (entries : List TimeEntry)
    (times_off : List TimeOff) (e : TimeEntry) (t : TimeOff)
    (he : ∀ x ∈ entries, 0 ≤ x.hours) (ht : ∀ x ∈ times_off, 0 ≤ x.hours)
    (hed : e.date.date_naive_utc = d) (htd : t.date = formatYmdDashed d)
    (he0 : 0 ≤ e.hours) (ht0 : 0 ≤ t.hours) :
    (0 ≤ get_remaining_workload d entries times_off ∧
      get_remaining_workload d entries times_off ≤ 8) ∧
    get_remaining_workload d (entries ++ [e]) times_off ≤
      get_remaining_workload d entries times_off ∧
    get_remaining_workload d entries (times_off ++ [t]) ≤
      get_remaining_workload d entries times_off := by
  have hsum1 : 0 ≤ entryHoursOn d entries := by
    apply sum_map_nonneg
    intro x hx
    exact he x (List.mem_of_mem_filter hx)
  have hsum2 : 0 ≤ timeOffHoursOn d times_off := by
    apply sum_map_nonneg
    intro x hx
    exact ht x (List.mem_of_mem_filter hx)
  have happ1 : entryHoursOn d (entries ++ [e]) =
      entryHoursOn d entries + e.hours := by
    unfold entryHoursOn
    rw [List.filter_append]
    simp [hed]
  have happ2 : timeOffHoursOn d (times_off ++ [t]) =
      timeOffHoursOn d times_off + t.hours := by
    unfold timeOffHoursOn
    rw [List.filter_append]
    simp [htd]
  rw [get_remaining_workload_eq, get_remaining_workload_eq,
    get_remaining_workload_eq, happ1, happ2]
  refine ⟨⟨?_, ?_⟩, ?_, ?_⟩ <;> omega

/-- Witness for C8 at concrete inputs: empty snapshots, one matching extra
entry and one matching extra time-off record of one hour each. -/
theorem claim_C8_witness :
    (0 ≤ get_remaining_workload 0 [] [] ∧
      get_remaining_workload 0 [] [] ≤ 8) ∧
    get_remaining_workload 0 [sampleEntry 0 1] [] ≤
      get_remaining_workload 0 [] [] ∧
    get_remaining_workload 0 [] [⟨formatYmdDashed 0, 1⟩] ≤
      get_remaining_workload 0 [] [] :=
  claim_C8 0 [] [] (sampleEntry 0 1) ⟨formatYmdDashed 0, 1⟩
    (by intro x hx; cases hx) (by intro x hx; cases hx) rfl rfl
    (by decide) (by decide)

/-- Longest digit prefix of a character list and the rest, modelling the
greedy `[0-9]+` step of the regex in `parse_time_duration` (main.rs:233). -/
def spanDigits : List Char → List Char × List Char
  | [] => ([], [])
  | c :: cs =>
    if c.isDigit then
      let r := spanDigits cs
      (c :: r.1, r.2)
    else ([], c :: cs)

/-- Numeric value of a digit string, as `str::parse::<i32>` reads it. -/
def digitsToNat (ds : List Char) : Nat :=
  ds.foldl (fun n c => 10 * n + (c.toNat - 48)) 0


/-- One optional component `([0-9]+)x` of the duration regex
`(([0-9]+)d)?(([0-9]+)h)?` at the current position: on success returns the
captured number and the remaining input, on failure captures nothing and
consumes nothing. -/
def matchComp (suffix : Char) (cs : List Char) : Option Nat × List Char :=
  let sp := spanDigits cs
  if sp.1 = [] then (none, cs)
  else if sp.2.head? = some suffix then (some (digitsToNat sp.1), sp.2.tail)
  else (none, cs)

/-- Embeds `parse_time_duration` (main.rs:232-249): the regex
`(([0-9]+)d)?(([0-9]+)h)?` always matches at position 0 (both groups are
optional), days and hours groups are captured greedily in order; if both
capture groups are `None` the parse fails, otherwise the result is
`days * 8 + hours` with absent components defaulting to 0. -/
def parse_time_duration (time : String) : Option Int :=
  let dm := matchComp 'd' time.data
  let hm := matchComp 'h' dm.2
  if dm.1 = none ∧ hm.1 = none then none
  else some ((dm.1.getD 0 * 8 + hm.1.getD 0 : Nat) : Int)

lemma data_mk (l : List Char) : (String.mk l).data = l := rfl

lemma spanDigits_append (ds : List Char) (c : Char) (rest : List Char)
    (hd : ∀ x ∈ ds, x.isDigit = true) (hc : c.isDigit = false) :
    spanDigits (ds ++ c :: rest) = (ds, c :: rest) := by
  induction ds with
  | nil => simp [spanDigits, hc]
  | cons a ds ih =>
    have ha : a.isDigit = true := hd a (by simp)
    have ih' := ih (fun x hx => hd x (by simp [hx]))
    simp [spanDigits, ha, ih']

lemma matchComp_hit (ds : List Char) (c : Char) (rest : List Char)
    (hne : ds ≠ []) (hd : ∀ x ∈ ds, x.isDigit = true) (hc : c.isDigit = false) :
    matchComp c (ds ++ c :: rest) = (some (digitsToNat ds), rest) := by
  simp only [matchComp, spanDigits_append ds c rest hd hc]
  rw [if_neg hne, if_pos (by simp)]
  rfl

lemma matchComp_snd_of_none (c : Char) (cs : List Char)
    (h : (matchComp c cs).1 = none) : (matchComp c cs).2 = cs := by
  simp only [matchComp] at h ⊢
  split_ifs at h ⊢ <;> rfl

/-- C9: concrete duration strings parse as the spec says, and in general a
days component contributes eight hours per unit, an hours component one per
unit, either may be absent, and a string in which neither component matches
fails to parse. -/
theorem claim_C9 (ds hs : List Char) (hds : ds ≠ []) (hhs : hs ≠ [])
    (hd : ∀ c ∈ ds, c.isDigit = true) (hh : ∀ c ∈ hs, c.isDigit = true) :
    parse_time_duration "8d4h" = some 68 ∧
    parse_time_duration "2h" = some 2 ∧
    parse_time_duration "3d" = some 24 ∧
    parse_time_duration ⟨ds ++ 'd' :: (hs ++ ['h'])⟩ =
      some ((digitsToNat ds * 8 + digitsToNat hs : Nat) : Int) ∧
    parse_time_duration ⟨ds ++ ['d']⟩ =
      some ((digitsToNat ds * 8 : Nat) : Int) ∧
    parse_time_duration ⟨hs ++ ['h']⟩ = some ((digitsToNat hs : Nat) : Int) ∧
    (∀ s : String, (matchComp 'd' s.data).1 = none →
      (matchComp 'h' s.data).1 = none → parse_time_duration s = none) := by
  have hdnd : ('d' : Char).isDigit = false := by decide
  have hhnd : ('h' : Char).isDigit = false := by decide
  refine ⟨by decide, by decide, by decide, ?_, ?_, ?_, ?_⟩
  · simp only [parse_time_duration, data_mk]
    rw [matchComp_hit ds 'd' (hs ++ ['h']) hds hd hdnd]
    rw [show ((some (digitsToNat ds), hs ++ ['h']) : Option Nat × List Char).2
          = hs ++ 'h' :: [] from rfl]
    rw [matchComp_hit hs 'h' [] hhs hh hhnd]
    simp
  · simp only [parse_time_duration, data_mk]
    rw [show ds ++ ['d'] = ds ++ 'd' :: [] from rfl]
    rw [matchComp_hit ds 'd' [] hds hd hdnd]
    rw [show ((some (digitsToNat ds), []) : Option Nat × List Char).2
          = [] from rfl]
    rw [show matchComp 'h' [] = (none, []) from by decide]
    simp
  · have hdm : matchComp 'd' (hs ++ ['h']) = (none, hs ++ ['h']) := by
      simp only [matchComp, show hs ++ ['h'] = hs ++ 'h' :: [] from rfl,
        spanDigits_append hs 'h' [] hh hhnd]
      rw [if_neg hhs, if_neg (by simp)]
    simp only [parse_time_duration, data_mk]
    rw [hdm]
    rw [show ((none, hs ++ ['h']) : Option Nat × List Char).2
          = hs ++ 'h' :: [] from rfl]
    rw [matchComp_hit hs 'h' [] hhs hh hhnd]
    simp
  · intro s h1 h2
    simp only [parse_time_duration]
    rw [matchComp_snd_of_none 'd' s.data h1]
    rw [if_pos ⟨h1, h2⟩]

/-- Witness for C9 applied at the digit lists of "8d4h". -/
theorem claim_C9_witness : parse_time_duration "8d4h" = some 68 :=
  (claim_C9 ['8'] ['4'] (by decide) (by decide) (by decide) (by decide)).1

/-- Embeds `TeamWorkConfig::with_time_off` (teamwork_config.rs:41-57):
clone the config, drop every time-off record with the given date, and push
a fresh record exactly when `hours > 0`. -/
def TeamWorkConfig.with_time_off (c : TeamWorkConfig) (date : String)
    (hours : Int) : TeamWorkConfig :=
  let off : TimeOff := { date := date, hours := hours }
  let times_off := c.times_off.filter (fun time_off => time_off.date != date)
  let times_off := if hours > 0 then times_off ++ [off] else times_off
  { c with times_off := times_off }

lemma filter_ne_then_eq (s : String) (l : List TimeOff) :
    (l.filter (fun t => t.date != s)).filter (fun t => t.date == s) = [] := by
  induction l with
  | nil => rfl
  | cons a l ih =>
    by_cases ha : a.date = s
    · simp [List.filter_cons, ha, ih]
    · simp only [List.filter_cons]
      rw [if_pos (by simp [ha]), List.filter_cons, if_neg (by simp [ha])]
      exact ih

/-- C10: `with_time_off` leaves every other config field unchanged, its
effect on `times_off` is exactly remove-then-conditionally-append, the
result holds at most one record for the given date, and a non-positive
hours value deletes that date's record outright. -/
theorem claim_C10 (c : TeamWorkConfig) (s : String) (h : Int) :
    (c.with_time_off s h).company_id = c.company_id ∧
    (c.with_time_off s h).token = c.token ∧
    (c.with_time_off s h).project_aliases = c.project_aliases ∧
    (c.with_time_off s h).starred_tasks = c.starred_tasks ∧
    (c.with_time_off s h).times_off =
      c.times_off.filter (fun t => t.date != s) ++
        (if h > 0 then [⟨s, h⟩] else []) ∧
    ((c.with_time_off s h).times_off.filter (fun t => t.date == s)).length ≤ 1 ∧
    (h ≤ 0 →
      (c.with_time_off s h).times_off.filter (fun t => t.date == s) = []) := by
  have hto : (c.with_time_off s h).times_off =
      c.times_off.filter (fun t => t.date != s) ++
        (if h > 0 then [⟨s, h⟩] else []) := by
    simp only [TeamWorkConfig.with_time_off]
    split_ifs <;> simp
  refine ⟨rfl, rfl, rfl, rfl, hto, ?_, ?_⟩
  · rw [hto, List.filter_append, filter_ne_then_eq]
    split_ifs <;> simp
  · intro hle
    rw [hto, if_neg (by omega), List.append_nil, filter_ne_then_eq]

/-- A concrete config used by witnesses. -/
def sampleConfig : TeamWorkConfig :=
  { company_id := "c", token := "t", project_aliases := [],
    times_off := [⟨"2020-01-23", 8⟩], starred_tasks := [] }

/-- Witness for C10: saving zero hours for a date deletes its record. -/
theorem claim_C10_witness :
    (sampleConfig.with_time_off "2020-01-23" 0).times_off.filter
      (fun t => t.date == "2020-01-23") = [] :=
  (claim_C10 sampleConfig "2020-01-23" 0).2.2.2.2.2.2 (by decide)

/-- Embeds the accumulation loop of `get_missing_entries`
(teamwork_service.rs:118-127): starting at `d`, while `d < today` add the
day's remaining workload when the day is a working day, then step to the
next calendar day. -/
def missingLoop (today : Nat) (entries : List TimeEntry)
    (times_off : List TimeOff) (d : Nat) : Int :=
  if _h : d < today then
    (if is_working_day d then get_remaining_workload d entries times_off
     else 0) + missingLoop today entries times_off (d + 1)
  else 0
termination_by today - d

/-- Embeds `get_missing_entries` (teamwork_service.rs:108-130).  The
`last_time_entries` fetch is modelled by its `Except` result, consulted
only after the early return. -/
def get_missing_entries (today : Nat) (since_date : Nat)
    (entriesRes : Except String (List TimeEntry))
    (times_off : List TimeOff) : Except String Int :=
  if today ≤ since_date then Except.ok 0
  else
    entriesRes.map
      (fun time_entries => missingLoop today time_entries times_off since_date)

lemma missingLoop_eq_sum (today : Nat) (entries : List TimeEntry)
    (times_off : List TimeOff) :
    ∀ n d, today - d ≤ n →
      missingLoop today entries times_off d =
        ∑ x in Finset.Ico d today,
          (if is_working_day x then get_remaining_workload x entries times_off
           else 0) := by
  intro n
  induction n with
  | zero =>
    intro d hd
    rw [missingLoop, dif_neg (by omega), Finset.Ico_eq_empty (by omega),
      Finset.sum_empty]
  | succ n ih =>
    intro d hd
    by_cases hlt : d < today
    · rw [missingLoop, dif_pos hlt,
        Finset.sum_eq_sum_Ico_succ_bot hlt, ih (d + 1) (by omega)]
    · rw [missingLoop, dif_neg hlt, Finset.Ico_eq_empty (by omega),
        Finset.sum_empty]

/-- C4: `get_missing_entries` returns 0 whenever today is not after the
since-date (even before consulting the fetch result), and otherwise sums
the remaining workload of every working day in `[since, today)`, with
non-working days contributing nothing. -/
theorem claim_C4 (today since_date : Nat) (entries : List TimeEntry)
    (times_off : List TimeOff) (er : Except String (List TimeEntry)) :
    (today ≤ since_date →
      get_missing_entries today since_date er times_off = Except.ok 0) ∧
    get_missing_entries today since_date (Except.ok entries) times_off =
      Except.ok (∑ d in Finset.Ico since_date today,
        (if is_working_day d then
          get_remaining_workload d entries times_off else 0)) := by
  constructor
  · intro hle
    simp only [get_missing_entries]
    rw [if_pos hle]
  · by_cases hle : today ≤ since_date
    · simp only [get_missing_entries]
      rw [if_pos hle, Finset.Ico_eq_empty (by omega), Finset.sum_empty]
    · simp only [get_missing_entries]
      rw [if_neg hle]
      simp only [Except.map]
      rw [missingLoop_eq_sum today entries times_off (today - since_date)
        since_date (by omega)]

/-- Witness for C4: a failed fetch with a degenerate range still yields 0,
and the sum form holds on a concrete two-day range. -/
theorem claim_C4_witness :
    get_missing_entries 0 3 (Except.error "boom") [] = Except.ok 0 :=
  (claim_C4 0 3 [] [] (Except.error "boom")).1 (by omega)

lemma skip_eq (d : Nat) :
    skipNonWorking d = if is_working_day d then d else skipNonWorking (d + 1) := by
  rw [skipNonWorking]

lemma skipNonWorking_ge (d : Nat) : d ≤ skipNonWorking d := by
  rw [skip_eq]
  split_ifs with h1
  · exact Nat.le_refl d
  · rw [skip_eq]
    split_ifs with h2
    · omega
    · rw [skip_eq]
      split_ifs with h3
      · omega
      · exfalso
        have m1 := not_working_mod d h1
        have m2 := not_working_mod (d + 1) h2
        have m3 := not_working_mod (d + 2) h3
        omega

lemma skipNonWorking_working (d : Nat) :
    is_working_day (skipNonWorking d) = true := by
  rw [skip_eq]
  split_ifs with h1
  · exact h1
  · rw [skip_eq]
    split_ifs with h2
    · exact h2
    · rw [skip_eq]
      split_ifs with h3
      · exact h3
      · exfalso
        have m1 := not_working_mod d h1
        have m2 := not_working_mod (d + 1) h2
        have m3 := not_working_mod (d + 2) h3
        omega

/-- Result of a `save_time` run: the per-day report lines printed by the
loop (date and remaining workload, teamwork_service.rs:157-160), the
time-entry inputs POSTed to the gateway in order, and the final
`Result<i32, Error>`. -/
structure SaveTimeResult where
  log : List (Nat × Int)
  submissions : List TimeEntryInput
  result : Except String Int

/-- Embeds the per-day loop of `save_time` (teamwork_service.rs:154-187).
`oracle k` is the gateway's answer to the k-th `save_time_entry` POST of
the run: a transport/parse failure (`Except.error`, propagated by `?` at
line 171) or a parsed `TimeEntryCreatedResponse` whose status is only
printed.  Returns the printed log, the submitted entries and the loop
outcome. -/
def saveTimeLoop (today : Nat) (entries : List TimeEntry)
    (times_off : List TimeOff) (account_id description : String)
    (dry_run : Bool) (oracle : Nat → Except String TimeEntryCreatedResponse)
    (cursor : Nat) (remaining : Int) (k : Nat) :
    List (Nat × Int) × List TimeEntryInput × Except String Unit :=
  if _h : cursor < today ∧ 0 < remaining then
    let q := get_remaining_workload cursor entries times_off
    if dry_run then
      let rest := saveTimeLoop today entries times_off account_id description
        dry_run oracle (skipNonWorking (cursor + 1)) (remaining - q) k
      ((cursor, q) :: rest.1, rest.2.1, rest.2.2)
    else
      let input : TimeEntryInput :=
        { description := description, person_id := account_id,
          date := formatYmdCompact cursor, time := "08:00",
          hours := toString q, minutes := "0" }
      match oracle k with
      | Except.error e => ([(cursor, q)], [input], Except.error e)
      | Except.ok _resp =>
        let rest := saveTimeLoop today entries times_off account_id description
          dry_run oracle (skipNonWorking (cursor + 1)) (remaining - q) (k + 1)
        ((cursor, q) :: rest.1, input :: rest.2.1, rest.2.2)
  else ([], [], Except.ok ())
termination_by today - cursor
decreasing_by
  all_goals
    have := skipNonWorking_ge (cursor + 1)
    omega

/-- Embeds `save_time` (teamwork_service.rs:132-190): fetch the account,
then the existing entries (each `?`-propagated), run the per-day loop from
the start date, and return the originally requested hours on success. -/
def save_time (accountRes : Except String Account)
    (entriesRes : Except String (List TimeEntry)) (today : Nat)
    (task_id : String) (start_date : Nat) (hours : Int)
    (description : String) (dry_run : Bool) (times_off : List TimeOff)
    (oracle : Nat → Except String TimeEntryCreatedResponse) : SaveTimeResult :=
  match accountRes with
  | Except.error e => ⟨[], [], Except.error e⟩
  | Except.ok account =>
    match entriesRes with
    | Except.error e => ⟨[], [], Except.error e⟩
    | Except.ok time_entries =>
      let r := saveTimeLoop today time_entries times_off account.id
        description dry_run oracle start_date hours 0
      ⟨r.1, r.2.1,
        match r.2.2 with
        | Except.error e => Except.error e
        | Except.ok _ => Except.ok hours⟩

/-- Modelled from the spec (§4.4 step list) for the refinement claims: the
sequence of `(cursor, quota)` iterations of the allocation loop, iterating
exactly while `cursor < today` and `remaining > 0`, decrementing the
remaining request by the day's quota, and advancing the cursor to the next
day and then past non-working days. -/
def visitsSpec (today : Nat) (entries : List TimeEntry)
    (times_off : List TimeOff) (cursor : Nat) (remaining : Int) :
    List (Nat × Int) :=
  if _h : cursor < today ∧ 0 < remaining then
    let q := get_remaining_workload cursor entries times_off
    (cursor, q) :: visitsSpec today entries times_off
      (skipNonWorking (cursor + 1)) (remaining - q)
  else []
termination_by today - cursor
decreasing_by
  have := skipNonWorking_ge (cursor + 1)
  omega

/-- The time-entry input `save_time` builds for a visited day
(teamwork_service.rs:162-169). -/
def mkInput (account_id description : String) (cursor : Nat) (q : Int) :
    TimeEntryInput :=
  { description := description, person_id := account_id,
    date := formatYmdCompact cursor, time := "08:00",
    hours := toString q, minutes := "0" }

lemma visitsSpec_stop (today : Nat) (entries : List TimeEntry)
    (times_off : List TimeOff) (cursor : Nat) (remaining : Int)
    (hstop : ¬(cursor < today ∧ 0 < remaining)) :
    visitsSpec today entries times_off cursor remaining = [] := by
  rw [visitsSpec, dif_neg hstop]

lemma visitsSpec_step (today : Nat) (entries : List TimeEntry)
    (times_off : List TimeOff) (cursor : Nat) (remaining : Int)
    (hgo : cursor < today ∧ 0 < remaining) :
    visitsSpec today entries times_off cursor remaining =
      (cursor, get_remaining_workload cursor entries times_off) ::
        visitsSpec today entries times_off (skipNonWorking (cursor + 1))
          (remaining - get_remaining_workload cursor entries times_off) := by
  rw [visitsSpec, dif_pos hgo]

lemma saveTimeLoop_stop (today : Nat) (entries : List TimeEntry)
    (times_off : List TimeOff) (account_id description : String)
    (dry_run : Bool) (oracle : Nat → Except String TimeEntryCreatedResponse)
    (cursor : Nat) (remaining : Int) (k : Nat)
    (hstop : ¬(cursor < today ∧ 0 < remaining)) :
    saveTimeLoop today entries times_off account_id description dry_run
      oracle cursor remaining k = ([], [], Except.ok ()) := by
  rw [saveTimeLoop, dif_neg hstop]

lemma saveTimeLoop_dry (today : Nat) (entries : List TimeEntry)
    (times_off : List TimeOff) (account_id description : String)
    (oracle : Nat → Except String TimeEntryCreatedResponse)
    (cursor : Nat) (remaining : Int) (k : Nat)
    (hgo : cursor < today ∧ 0 < remaining) :
    saveTimeLoop today entries times_off account_id description true
      oracle cursor remaining k =
      ((cursor, get_remaining_workload cursor entries times_off) ::
          (saveTimeLoop today entries times_off account_id description true
            oracle (skipNonWorking (cursor + 1))
            (remaining - get_remaining_workload cursor entries times_off)
            k).1,
        (saveTimeLoop today entries times_off account_id description true
          oracle (skipNonWorking (cursor + 1))
          (remaining - get_remaining_workload cursor entries times_off)
          k).2.1,
        (saveTimeLoop today entries times_off account_id description true
          oracle (skipNonWorking (cursor + 1))
          (remaining - get_remaining_workload cursor entries times_off)
          k).2.2) := by
  rw [saveTimeLoop, dif_pos hgo]
  rfl

lemma saveTimeLoop_err (today : Nat) (entries : List TimeEntry)
    (times_off : List TimeOff) (account_id description : String)
    (oracle : Nat → Except String TimeEntryCreatedResponse)
    (cursor : Nat) (remaining : Int) (k : Nat) (e : String)
    (hgo : cursor < today ∧ 0 < remaining) (herr : oracle k = Except.error e) :
    saveTimeLoop today entries times_off account_id description false
      oracle cursor remaining k =
      ([(cursor, get_remaining_workload cursor entries times_off)],
        [mkInput account_id description cursor
          (get_remaining_workload cursor entries times_off)],
        Except.error e) := by
  rw [saveTimeLoop, dif_pos hgo]
  simp only [Bool.false_eq_true, if_false, herr]
  rfl

lemma saveTimeLoop_ok (today : Nat) (entries : List TimeEntry)
    (times_off : List TimeOff) (account_id description : String)
    (oracle : Nat → Except String TimeEntryCreatedResponse)
    (cursor : Nat) (remaining : Int) (k : Nat)
    (resp : TimeEntryCreatedResponse)
    (hgo : cursor < today ∧ 0 < remaining) (hres : oracle k = Except.ok resp) :
    saveTimeLoop today entries times_off account_id description false
      oracle cursor remaining k =
      ((cursor, get_remaining_workload cursor entries times_off) ::
          (saveTimeLoop today entries times_off account_id description false
            oracle (skipNonWorking (cursor + 1))
            (remaining - get_remaining_workload cursor entries times_off)
            (k + 1)).1,
        mkInput account_id description cursor
            (get_remaining_workload cursor entries times_off) ::
          (saveTimeLoop today entries times_off account_id description false
            oracle (skipNonWorking (cursor + 1))
            (remaining - get_remaining_workload cursor entries times_off)
            (k + 1)).2.1,
        (saveTimeLoop today entries times_off account_id description false
          oracle (skipNonWorking (cursor + 1))
          (remaining - get_remaining_workload cursor entries times_off)
          (k + 1)).2.2) := by
  rw [saveTimeLoop, dif_pos hgo]
  simp only [Bool.false_eq_true, if_false, hres]
  rfl

lemma loop_dry_props (today : Nat) (entries : List TimeEntry)
    (times_off : List TimeOff) (account_id description : String)
    (oracle : Nat → Except String TimeEntryCreatedResponse) :
    ∀ n cursor remaining k, today - cursor ≤ n →
      (saveTimeLoop today entries times_off account_id description true
          oracle cursor remaining k).1 =
        visitsSpec today entries times_off cursor remaining ∧
      (saveTimeLoop today entries times_off account_id description true
          oracle cursor remaining k).2.1 = [] ∧
      (saveTimeLoop today entries times_off account_id description true
          oracle cursor remaining k).2.2 = Except.ok () := by
  intro n
  induction n with
  | zero =>
    intro cursor remaining k hb
    have hstop : ¬(cursor < today ∧ 0 < remaining) := by omega
    rw [saveTimeLoop_stop today entries times_off account_id description true
      oracle cursor remaining k hstop,
      visitsSpec_stop today entries times_off cursor remaining hstop]
    exact ⟨rfl, rfl, rfl⟩
  | succ n ih =>
    intro cursor remaining k hb
    by_cases hgo : cursor < today ∧ 0 < remaining
    · have hskip := skipNonWorking_ge (cursor + 1)
      have ih' := ih (skipNonWorking (cursor + 1))
        (remaining - get_remaining_workload cursor entries times_off) k
        (by omega)
      rw [saveTimeLoop_dry today entries times_off account_id description
        oracle cursor remaining k hgo,
        visitsSpec_step today entries times_off cursor remaining hgo]
      exact ⟨by rw [ih'.1], ih'.2.1, ih'.2.2⟩
    · rw [saveTimeLoop_stop today entries times_off account_id description true
        oracle cursor remaining k hgo,
        visitsSpec_stop today entries times_off cursor remaining hgo]
      exact ⟨rfl, rfl, rfl⟩

lemma loop_allok_props (today : Nat) (entries : List TimeEntry)
    (times_off : List TimeOff) (account_id description : String)
    (oracle : Nat → Except String TimeEntryCreatedResponse)
    (hok : ∀ j, ∃ r, oracle j = Except.ok r) :
    ∀ n cursor remaining k, today - cursor ≤ n →
      (saveTimeLoop today entries times_off account_id description false
          oracle cursor remaining k).1 =
        visitsSpec today entries times_off cursor remaining ∧
      (saveTimeLoop today entries times_off account_id description false
          oracle cursor remaining k).2.1 =
        (visitsSpec today entries times_off cursor remaining).map
          (fun p => mkInput account_id description p.1 p.2) ∧
      (saveTimeLoop today entries times_off account_id description false
          oracle cursor remaining k).2.2 = Except.ok () := by
  intro n
  induction n with
  | zero =>
    intro cursor remaining k hb
    have hstop : ¬(cursor < today ∧ 0 < remaining) := by omega
    rw [saveTimeLoop_stop today entries times_off account_id description false
      oracle cursor remaining k hstop,
      visitsSpec_stop today entries times_off cursor remaining hstop]
    exact ⟨rfl, rfl, rfl⟩
  | succ n ih =>
    intro cursor remaining k hb
    by_cases hgo : cursor < today ∧ 0 < remaining
    · have hskip := skipNonWorking_ge (cursor + 1)
      obtain ⟨resp, hres⟩ := hok k
      have ih' := ih (skipNonWorking (cursor + 1))
        (remaining - get_remaining_workload cursor entries times_off) (k + 1)
        (by omega)
      rw [saveTimeLoop_ok today entries times_off account_id description
        oracle cursor remaining k resp hgo hres,
        visitsSpec_step today entries times_off cursor remaining hgo]
      refine ⟨by rw [ih'.1], ?_, ih'.2.2⟩
      simp only [List.map_cons]
      rw [ih'.2.1]
    · rw [saveTimeLoop_stop today entries times_off account_id description
        false oracle cursor remaining k hgo,
        visitsSpec_stop today entries times_off cursor remaining hgo]
      exact ⟨rfl, rfl, rfl⟩

lemma loop_working_props (today : Nat) (entries : List TimeEntry)
    (times_off : List TimeOff) (account_id description : String)
    (dry_run : Bool) (oracle : Nat → Except String TimeEntryCreatedResponse) :
    ∀ n cursor remaining k, today - cursor ≤ n →
      (is_working_day cursor = true →
        ∀ p ∈ (saveTimeLoop today entries times_off account_id description
          dry_run oracle cursor remaining k).1, is_working_day p.1 = true) ∧
      (∀ p ∈ (saveTimeLoop today entries times_off account_id description
          dry_run oracle cursor remaining k).1.tail,
        is_working_day p.1 = true) := by
  intro n
  induction n with
  | zero =>
    intro cursor remaining k hb
    have hstop : ¬(cursor < today ∧ 0 < remaining) := by omega
    rw [saveTimeLoop_stop today entries times_off account_id description
      dry_run oracle cursor remaining k hstop]
    exact ⟨fun _ p hp => absurd hp (List.not_mem_nil p),
      fun p hp => absurd hp (List.not_mem_nil p)⟩
  | succ n ih =>
    intro cursor remaining k hb
    by_cases hgo : cursor < today ∧ 0 < remaining
    · have hskip := skipNonWorking_ge (cursor + 1)
      have hworkskip := skipNonWorking_working (cursor + 1)
      cases hdry : dry_run with
      | true =>
        subst hdry
        rw [saveTimeLoop_dry today entries times_off account_id description
          oracle cursor remaining k hgo]
        have ihs := ih (skipNonWorking (cursor + 1))
          (remaining - get_remaining_workload cursor entries times_off) k
          (by omega)
        have hrest := ihs.1 hworkskip
        constructor
        · intro hw p hp
          rcases List.mem_cons.mp hp with hp | hp
          · rw [hp]
            exact hw
          · exact hrest p hp
        · intro p hp
          exact hrest p hp
      | false =>
        subst hdry
        cases hres : oracle k with
        | error e =>
          rw [saveTimeLoop_err today entries times_off account_id description
            oracle cursor remaining k e hgo hres]
          constructor
          · intro hw p hp
            rcases List.mem_cons.mp hp with hp | hp
            · rw [hp]
              exact hw
            · exact absurd hp (List.not_mem_nil p)
          · intro p hp
            exact absurd hp (List.not_mem_nil p)
        | ok resp =>
          rw [saveTimeLoop_ok today entries times_off account_id description
            oracle cursor remaining k resp hgo hres]
          have ihs := ih (skipNonWorking (cursor + 1))
            (remaining - get_remaining_workload cursor entries times_off)
            (k + 1) (by omega)
          have hrest := ihs.1 hworkskip
          constructor
          · intro hw p hp
            rcases List.mem_cons.mp hp with hp | hp
            · rw [hp]
              exact hw
            · exact hrest p hp
          · intro p hp
            exact hrest p hp
    · rw [saveTimeLoop_stop today entries times_off account_id description
        dry_run oracle cursor remaining k hgo]
      exact ⟨fun _ p hp => absurd hp (List.not_mem_nil p),
        fun p hp => absurd hp (List.not_mem_nil p)⟩

/-- A gateway that accepts every submission with status "OK". -/
def okOracle : Nat → Except String TimeEntryCreatedResponse :=
  fun _ => Except.ok ⟨some "42", "OK"⟩

/-- A gateway that accepts every submission but reports a status other than
"OK". -/
def oddOracle : Nat → Except String TimeEntryCreatedResponse :=
  fun _ => Except.ok ⟨some "1", "WEIRD"⟩

/-- A gateway whose every submission fails with a transport error. -/
def errOracle : Nat → Except String TimeEntryCreatedResponse :=
  fun _ => Except.error "boom"

/-- C3 as amended: provided no individual submission suffers a
transport/parse failure - in particular in every dry run - `save_time`
iterates exactly while `cursor < today` and the remaining request is
positive, each iteration decrementing the remaining request by that day's
computed quota (not by the hours actually submitted), identically in
dry-run and non-dry-run mode, and the loop ends when the cursor reaches
today or the request is exhausted.  A mid-run submission failure instead
aborts the loop early. -/
theorem claim_C3 (acct : Account) (entries : List TimeEntry)
    (times_off : List TimeOff) (today : Nat) (task_id : String)
    (start_date : Nat) (hours : Int) (description : String) (dry_run : Bool)
    (oracle : Nat → Except String TimeEntryCreatedResponse)
    (hok : dry_run = true ∨ ∀ j, ∃ r, oracle j = Except.ok r) :
    (save_time (Except.ok acct) (Except.ok entries) today task_id start_date
        hours description dry_run times_off oracle).log =
      visitsSpec today entries times_off start_date hours ∧
    (save_time (Except.ok acct) (Except.ok entries) today task_id start_date
        hours description dry_run times_off oracle).log =
      (save_time (Except.ok acct) (Except.ok entries) today task_id
        start_date hours description true times_off oracle).log ∧
    (¬(start_date < today ∧ 0 < hours) →
      (save_time (Except.ok acct) (Except.ok entries) today task_id
        start_date hours description dry_run times_off oracle).log = []) := by
  have hlog_true :
      (save_time (Except.ok acct) (Except.ok entries) today task_id
        start_date hours description true times_off oracle).log =
      visitsSpec today entries times_off start_date hours := by
    show (saveTimeLoop today entries times_off acct.id description true
      oracle start_date hours 0).1 = _
    exact (loop_dry_props today entries times_off acct.id description
      oracle (today - start_date) start_date hours 0 (Nat.le_refl _)).1
  have hlog :
      (save_time (Except.ok acct) (Except.ok entries) today task_id
        start_date hours description dry_run times_off oracle).log =
      visitsSpec today entries times_off start_date hours := by
    cases hdry : dry_run with
    | true => exact hlog_true
    | false =>
      rcases hok with h | hok'
      · rw [hdry] at h
        exact absurd h (by simp)
      · show (saveTimeLoop today entries times_off acct.id description false
          oracle start_date hours 0).1 = _
        exact (loop_allok_props today entries times_off acct.id description
          oracle hok' (today - start_date) start_date hours 0
          (Nat.le_refl _)).1
  refine ⟨hlog, by rw [hlog, hlog_true], fun hstop => ?_⟩
  rw [hlog,
    visitsSpec_stop today entries times_off start_date hours hstop]

/-- Witness for C3 on a concrete two-working-day run. -/
theorem claim_C3_witness :
    (save_time (Except.ok ⟨"A"⟩) (Except.ok []) 2 "t" 0 16 "w" false []
        okOracle).log = visitsSpec 2 [] [] 0 16 :=
  (claim_C3 ⟨"A"⟩ [] [] 2 "t" 0 16 "w" false okOracle
    (Or.inr (fun _ => ⟨⟨some "42", "OK"⟩, rfl⟩))).1

/-- Counterexample to C3 as stated: with a transport failure on the first
submission, the non-dry run visits only day 0 although the loop guard
still holds afterwards (day 1 is before today and 8 requested hours
remain), while the identically-parametrised dry run visits days 0 and 1:
the iteration is neither "exactly while cursor < today and remaining > 0"
nor identical across dry-run modes. -/
theorem claim_C3_counterexample :
    (save_time (Except.ok ⟨"A"⟩) (Except.ok []) 2 "t" 0 16 "w" false []
        errOracle).log = [(0, 8)] ∧
    (save_time (Except.ok ⟨"A"⟩) (Except.ok []) 2 "t" 0 16 "w" true []
        errOracle).log = [(0, 8), (1, 8)] ∧
    (1 < 2 ∧ (0 : Int) < 16 - 8) := by
  have hgrw0 : get_remaining_workload 0 [] [] = (8 : Int) := by decide
  have hgrw1 : get_remaining_workload 1 [] [] = (8 : Int) := by decide
  refine ⟨?_, ?_, by omega⟩
  · show (saveTimeLoop 2 [] [] "A" "w" false errOracle 0 16 0).1 = _
    rw [saveTimeLoop_err 2 [] [] "A" "w" errOracle 0 16 0 "boom"
      (by norm_num) rfl, hgrw0]
  · show (saveTimeLoop 2 [] [] "A" "w" true errOracle 0 16 0).1 = _
    rw [(loop_dry_props 2 [] [] "A" "w" errOracle 2 0 16 0 (by omega)).1]
    rw [visitsSpec_step 2 [] [] 0 16 (by norm_num), hgrw0]
    have hskip : skipNonWorking (0 + 1) = 1 := by
      rw [skip_eq]
      norm_num [is_working_day, weekdayIdx]
    rw [hskip, visitsSpec_step 2 [] [] 1 (16 - 8) (by norm_num), hgrw1]
    have hskip4 : skipNonWorking 4 = 4 := by
      rw [skip_eq]
      norm_num [is_working_day, weekdayIdx]
    have hskip3 : skipNonWorking 3 = 4 := by
      rw [skip_eq]
      norm_num [is_working_day, weekdayIdx]
      exact hskip4
    have hskip2 : skipNonWorking (1 + 1) = 4 := by
      rw [skip_eq]
      norm_num [is_working_day, weekdayIdx]
      exact hskip3
    rw [hskip2, visitsSpec_stop 2 [] [] 4 (16 - 8 - 8) (by omega)]

/-- C2 as amended: when the fetches succeed and every submission is
answered, a non-dry run submits one entry for EVERY visited day — whether
or not its quota is positive — carrying the day's quota as its hours, the
fixed start time "08:00", the cursor's date and the request's description;
a dry run submits nothing. -/
theorem claim_C2 (acct : Account) (entries : List TimeEntry)
    (times_off : List TimeOff) (today : Nat) (task_id : String)
    (start_date : Nat) (hours : Int) (description : String)
    (oracle : Nat → Except String TimeEntryCreatedResponse)
    (hok : ∀ j, ∃ r, oracle j = Except.ok r) :
    (save_time (Except.ok acct) (Except.ok entries) today task_id start_date
        hours description false times_off oracle).submissions =
      (save_time (Except.ok acct) (Except.ok entries) today task_id
          start_date hours description false times_off oracle).log.map
        (fun p => mkInput acct.id description p.1 p.2) ∧
    (save_time (Except.ok acct) (Except.ok entries) today task_id start_date
        hours description true times_off oracle).submissions = [] := by
  have h := loop_allok_props today entries times_off acct.id description
    oracle hok (today - start_date) start_date hours 0 (Nat.le_refl _)
  constructor
  · show (saveTimeLoop today entries times_off acct.id description false
      oracle start_date hours 0).2.1 =
      (saveTimeLoop today entries times_off acct.id description false oracle
        start_date hours 0).1.map (fun p => mkInput acct.id description p.1 p.2)
    rw [h.2.1, h.1]
  · show (saveTimeLoop today entries times_off acct.id description true
      oracle start_date hours 0).2.1 = []
    exact (loop_dry_props today entries times_off acct.id description oracle
      (today - start_date) start_date hours 0 (Nat.le_refl _)).2.1

/-- Witness for C2 on a concrete run. -/
theorem claim_C2_witness :
    (save_time (Except.ok ⟨"A"⟩) (Except.ok []) 2 "t" 0 16 "w" false []
        okOracle).submissions =
      (save_time (Except.ok ⟨"A"⟩) (Except.ok []) 2 "t" 0 16 "w" false []
          okOracle).log.map (fun p => mkInput "A" "w" p.1 p.2) :=
  (claim_C2 ⟨"A"⟩ [] [] 2 "t" 0 16 "w" okOracle
    (fun j => ⟨⟨some "42", "OK"⟩, rfl⟩)).1

/-- Counterexample to C2 as stated: on a day whose quota is zero (8 hours
already logged), a non-dry run still submits an entry — with hours "0" —
although the claim requires a submission only when the quota is strictly
positive. -/
theorem claim_C2_counterexample :
    get_remaining_workload 0 [sampleEntry 0 8] [] = 0 ∧
    (save_time (Except.ok ⟨"A"⟩) (Except.ok [sampleEntry 0 8]) 1 "t" 0 5 "w"
        false [] okOracle).submissions = [mkInput "A" "w" 0 0] := by
  refine ⟨by decide, ?_⟩
  show (saveTimeLoop 1 [sampleEntry 0 8] [] "A" "w" false okOracle 0 5
    0).2.1 = [mkInput "A" "w" 0 0]
  rw [(loop_allok_props 1 [sampleEntry 0 8] [] "A" "w" okOracle
    (fun j => ⟨⟨some "42", "OK"⟩, rfl⟩) 1 0 5 0 (by omega)).2.1]
  rw [visitsSpec_step 1 [sampleEntry 0 8] [] 0 5 (by norm_num)]
  rw [show get_remaining_workload 0 [sampleEntry 0 8] [] = (0 : Int) from
    by decide]
  have hskip : skipNonWorking (0 + 1) = 1 := by
    rw [skip_eq]
    norm_num [is_working_day, weekdayIdx]
  rw [hskip, visitsSpec_stop 1 [sampleEntry 0 8] [] 1 (5 - 0) (by omega)]
  rfl

/-- C5 as amended: after each iteration the cursor advances to the
calendar successor and past every Saturday and Sunday, so every visited
day AFTER THE FIRST is a working day; if the start date itself is a
working day then every visited day is a working day.  The first visited
day is the start date verbatim and may be a weekend day. -/
theorem claim_C5 (acct : Account) (entries : List TimeEntry)
    (times_off : List TimeOff) (today : Nat) (task_id : String)
    (start_date : Nat) (hours : Int) (description : String) (dry_run : Bool)
    (oracle : Nat → Except String TimeEntryCreatedResponse) :
    (∀ p ∈ (save_time (Except.ok acct) (Except.ok entries) today task_id
        start_date hours description dry_run times_off oracle).log.tail,
      is_working_day p.1 = true) ∧
    (is_working_day start_date = true →
      ∀ p ∈ (save_time (Except.ok acct) (Except.ok entries) today task_id
        start_date hours description dry_run times_off oracle).log,
      is_working_day p.1 = true) := by
  have h := loop_working_props today entries times_off acct.id description
    dry_run oracle (today - start_date) start_date hours 0 (Nat.le_refl _)
  constructor
  · intro p hp
    refine h.2 p ?_
    exact hp
  · intro hw p hp
    refine h.1 hw p ?_
    exact hp

/-- Witness for C5: on a Monday start (day 4), the single visited day is a
working day. -/
theorem claim_C5_witness : is_working_day 4 = true := by
  have hlog : (save_time (Except.ok ⟨"A"⟩) (Except.ok []) 5 "t" 4 3 "w" true
      [] okOracle).log = [(4, 8)] := by
    show (saveTimeLoop 5 [] [] "A" "w" true okOracle 4 3 0).1 = [(4, 8)]
    rw [(loop_dry_props 5 [] [] "A" "w" okOracle 1 4 3 0 (by omega)).1]
    rw [visitsSpec_step 5 [] [] 4 3 (by norm_num)]
    rw [show get_remaining_workload 4 [] [] = (8 : Int) from by decide]
    have hskip : skipNonWorking (4 + 1) = 5 := by
      rw [skip_eq]
      norm_num [is_working_day, weekdayIdx]
    rw [hskip, visitsSpec_stop 5 [] [] 5 (3 - 8) (by omega)]
  refine (claim_C5 ⟨"A"⟩ [] [] 5 "t" 4 3 "w" true okOracle).2 (by decide)
    (4, 8) ?_
  rw [hlog]
  exact List.mem_singleton.mpr rfl

/-- Counterexample to C5 as stated: starting a run on a Saturday (day 2),
the first visited day is that Saturday itself — a quota is computed (and a
submission would be made) for a non-working day. -/
theorem claim_C5_counterexample :
    (save_time (Except.ok ⟨"A"⟩) (Except.ok []) 4 "t" 2 5 "w" true []
        okOracle).log = [(2, 8)] ∧
    is_working_day 2 = false := by
  constructor
  · show (saveTimeLoop 4 [] [] "A" "w" true okOracle 2 5 0).1 = [(2, 8)]
    rw [(loop_dry_props 4 [] [] "A" "w" okOracle 2 2 5 0 (by omega)).1]
    rw [visitsSpec_step 4 [] [] 2 5 (by norm_num)]
    rw [show get_remaining_workload 2 [] [] = (8 : Int) from by decide]
    have hskip4 : skipNonWorking 4 = 4 := by
      rw [skip_eq]
      norm_num [is_working_day, weekdayIdx]
    have hskip : skipNonWorking (2 + 1) = 4 := by
      rw [skip_eq]
      norm_num [is_working_day, weekdayIdx]
      exact hskip4
    rw [hskip, visitsSpec_stop 4 [] [] 4 (5 - 8) (by omega)]
  · decide

/-- C6 as amended: with the fetches successful and a non-dry run, a
remote-reported non-"OK" status is non-fatal — if the gateway answers every
submission, whatever the statuses, the run completes with `Ok(hours)` — but
a transport/parse failure on an individual submission aborts the run at
once: the error is propagated, the failing day's submission was the only
one attempted, and no later day is visited. -/
theorem claim_C6 (acct : Account) (entries : List TimeEntry)
    (times_off : List TimeOff) (today : Nat) (task_id : String)
    (start_date : Nat) (hours : Int) (description : String)
    (okO errO : Nat → Except String TimeEntryCreatedResponse) (e : String)
    (hok : ∀ j, ∃ r, okO j = Except.ok r) (herr : errO 0 = Except.error e)
    (hs : start_date < today) (hh : 0 < hours) :
    (save_time (Except.ok acct) (Except.ok entries) today task_id start_date
        hours description false times_off okO).result = Except.ok hours ∧
    (save_time (Except.ok acct) (Except.ok entries) today task_id start_date
        hours description false times_off errO).result = Except.error e ∧
    (save_time (Except.ok acct) (Except.ok entries) today task_id start_date
        hours description false times_off errO).submissions =
      [mkInput acct.id description start_date
        (get_remaining_workload start_date entries times_off)] ∧
    (save_time (Except.ok acct) (Except.ok entries) today task_id start_date
        hours description false times_off errO).log =
      [(start_date, get_remaining_workload start_date entries times_off)] := by
  have hloopend := saveTimeLoop_err today entries times_off acct.id
    description errO start_date hours 0 e ⟨hs, hh⟩ herr
  refine ⟨?_, ?_, ?_, ?_⟩
  · show (match (saveTimeLoop today entries times_off acct.id description
        false okO start_date hours 0).2.2 with
      | Except.error e => Except.error e
      | Except.ok _ => Except.ok hours) = Except.ok hours
    rw [(loop_allok_props today entries times_off acct.id description okO hok
      (today - start_date) start_date hours 0 (Nat.le_refl _)).2.2]
  · show (match (saveTimeLoop today entries times_off acct.id description
        false errO start_date hours 0).2.2 with
      | Except.error e => Except.error e
      | Except.ok _ => Except.ok hours) = Except.error e
    rw [hloopend]
  · show (saveTimeLoop today entries times_off acct.id description false errO
      start_date hours 0).2.1 = _
    rw [hloopend]
  · show (saveTimeLoop today entries times_off acct.id description false errO
      start_date hours 0).1 = _
    rw [hloopend]

/-- Witness for C6: one concrete run completing past a non-"OK" status,
one aborting on a transport failure. -/
theorem claim_C6_witness :
    (save_time (Except.ok ⟨"A"⟩) (Except.ok []) 1 "t" 0 5 "w" false []
        oddOracle).result = Except.ok 5 ∧
    (save_time (Except.ok ⟨"A"⟩) (Except.ok []) 1 "t" 0 5 "w" false []
        errOracle).result = Except.error "boom" ∧
    (save_time (Except.ok ⟨"A"⟩) (Except.ok []) 1 "t" 0 5 "w" false []
        errOracle).submissions =
      [mkInput "A" "w" 0 (get_remaining_workload 0 [] [])] ∧
    (save_time (Except.ok ⟨"A"⟩) (Except.ok []) 1 "t" 0 5 "w" false []
        errOracle).log = [(0, get_remaining_workload 0 [] [])] :=
  claim_C6 ⟨"A"⟩ [] [] 1 "t" 0 5 "w" oddOracle errOracle "boom"
    (fun j => ⟨⟨some "1", "WEIRD"⟩, rfl⟩) rfl (by omega) (by omega)

/-- Counterexample to C6 as stated: a transport failure on the first
submission aborts the whole run — although a second day (day 1, within
range, with requested hours left) was still due, only one submission is
ever attempted and the error is returned, where the claim promises the
loop continues to the next day. -/
theorem claim_C6_counterexample :
    (save_time (Except.ok ⟨"A"⟩) (Except.ok []) 2 "t" 0 16 "w" false []
        errOracle).result = Except.error "boom" ∧
    (save_time (Except.ok ⟨"A"⟩) (Except.ok []) 2 "t" 0 16 "w" false []
        errOracle).submissions = [mkInput "A" "w" 0 8] ∧
    visitsSpec 2 [] [] 0 16 = [(0, 8), (1, 8)] := by
  have hloopend := saveTimeLoop_err 2 [] [] "A" "w" errOracle 0 16 0 "boom"
    (by norm_num) rfl
  have hgrw0 : get_remaining_workload 0 [] [] = (8 : Int) := by decide
  have hgrw1 : get_remaining_workload 1 [] [] = (8 : Int) := by decide
  refine ⟨?_, ?_, ?_⟩
  · show (match (saveTimeLoop 2 [] [] "A" "w" false errOracle 0 16 0).2.2 with
      | Except.error e => Except.error e
      | Except.ok _ => Except.ok (16 : Int)) = Except.error "boom"
    rw [hloopend]
  · show (saveTimeLoop 2 [] [] "A" "w" false errOracle 0 16 0).2.1 = _
    rw [hloopend, hgrw0]
  · rw [visitsSpec_step 2 [] [] 0 16 (by norm_num), hgrw0]
    have hskip : skipNonWorking (0 + 1) = 1 := by
      rw [skip_eq]
      norm_num [is_working_day, weekdayIdx]
    rw [hskip, visitsSpec_step 2 [] [] 1 (16 - 8) (by norm_num), hgrw1]
    have hskip4 : skipNonWorking 4 = 4 := by
      rw [skip_eq]
      norm_num [is_working_day, weekdayIdx]
    have hskip3 : skipNonWorking 3 = 4 := by
      rw [skip_eq]
      norm_num [is_working_day, weekdayIdx]
      exact hskip4
    have hskip2 : skipNonWorking (1 + 1) = 4 := by
      rw [skip_eq]
      norm_num [is_working_day, weekdayIdx]
      exact hskip3
    rw [hskip2, visitsSpec_stop 2 [] [] 4 (16 - 8 - 8) (by omega)]

/-- C7: a transport/parse failure while fetching the account identity or
the existing time entries aborts `save_time` before any write: the error
is returned and no submission and no per-day visit has happened. -/
theorem claim_C7 (e : String) (er : Except String (List TimeEntry))
    (acct : Account) (today : Nat) (task_id : String) (start_date : Nat)
    (hours : Int) (description : String) (dry_run : Bool)
    (times_off : List TimeOff)
    (oracle : Nat → Except String TimeEntryCreatedResponse) :
    save_time (Except.error e) er today task_id start_date hours description
      dry_run times_off oracle = ⟨[], [], Except.error e⟩ ∧
    save_time (Except.ok acct) (Except.error e) today task_id start_date
      hours description dry_run times_off oracle = ⟨[], [], Except.error e⟩ :=
  ⟨rfl, rfl⟩
